import Mathlib

/-!
Verification of the row-expansion utilities of `code/utils.py`.

The embedding models a pandas `DataFrame` as an ordered list of rows,
each row an ordered association list from column names to cells, together
with the list of column names (the schema).  A cell holds a string, a
list of strings (as produced by `str.split`), or a natural number (the
`paper nb` column of the expanded table).

Python string primitives (`str.split`, `str.lstrip`, `str.lower`) are
embedded as executable functions on the character list underlying a
`String`.  Fallible operations (pandas `KeyError` on a missing column,
`TypeError` when a non-string cell is split, `ValueError` on an empty
separator) are embedded with `Except`.

`split_column_with_multiple_entries` mutates its argument: the source
line `df['temp'] = df[col].str.split(sep).apply(lstrip, lower=lower)`
adds a `temp` column to the caller's frame.  The embedding returns the
pair (input frame as it stands after the call, returned frame).
-/

/-- Python `str.isspace` characters relevant to `str.lstrip()`. -/
def isPySpace (c : Char) : Bool :=
  c == ' ' || c == '\t' || c == '\n' || c == '\r' || c == '\x0b' || c == '\x0c'

/-- Python `s.lstrip()`: drop leading whitespace characters. -/
def pyLstrip (s : String) : String := ⟨s.data.dropWhile isPySpace⟩

/-- Python `s.lower()`: lowercase every character. -/
def pyLower (s : String) : String := ⟨s.data.map Char.toLower⟩

/-- Does the second list start with the first one? -/
def startsWithCh : List Char → List Char → Bool
  | [], _ => true
  | _ :: _, [] => false
  | p :: ps, c :: cs => p == c && startsWithCh ps cs

/-- Worker for `pySplit`, structurally recursive on a fuel argument
(one unit of fuel per character consumed, so `fuel = length` is enough). -/
def splitOnFuel (sep : List Char) : Nat → List Char → List Char → List (List Char)
  | _, [], acc => [acc]
  | 0, _ :: _, acc => [acc]
  | fuel + 1, c :: rest, acc =>
    if !sep.isEmpty && startsWithCh sep (c :: rest) then
      acc :: splitOnFuel sep fuel (List.drop (sep.length - 1) rest) []
    else
      splitOnFuel sep fuel rest (acc ++ [c])

/-- Python `s.split(sep)` for a non-empty separator: scan left to right,
cut at each non-overlapping occurrence of `sep`, keeping empty pieces.
(For `sep = ""` Python raises `ValueError`; callers guard that case.) -/
def pySplit (s sep : String) : List String :=
  (splitOnFuel sep.data s.data.length s.data []).map (fun l => ⟨l⟩)

/-- `lstrip` from `code/utils.py`: remove left space from every string of
the list and make it lowercase when `lower` is true. -/
def lstrip (list_of_strs : List String) (lower : Bool) : List String :=
  list_of_strs.map (fun a => if lower then pyLower (pyLstrip a) else pyLstrip a)

/-- A table cell: a string, a list of strings (result of `str.split`),
or a natural number (the `paper nb` output column). -/
inductive Cell where
  | str (s : String)
  | strList (l : List String)
  | nat (n : Nat)
deriving DecidableEq, Repr

/-- A row: ordered association list from column names to cells. -/
abbrev Row := List (String × Cell)

/-- A pandas `DataFrame`: the schema (ordered column names) and the rows,
identified positionally (row index = position in `rows`). -/
structure DataFrame where
  colNames : List String
  rows : List Row
deriving DecidableEq, Repr

/-- Value of column `c` in row `r` (total: a cell absent from the row —
impossible for a frame whose rows match its schema — reads as `""`). -/
def Row.getCell : Row → String → Cell
  | [], _ => Cell.str ""
  | p :: t, c => if p.1 == c then p.2 else Row.getCell t c

/-- Is this cell a string? -/
def Cell.isStr : Cell → Bool
  | Cell.str _ => true
  | _ => false

/-- The string held by a string cell (`""` on the other shapes). -/
def Cell.asStr : Cell → String
  | Cell.str s => s
  | _ => ""

/-- Set column `c` of one row to `v`: replace the cell in place when the
column exists, append it at the end of the row otherwise. -/
def setCell (r : Row) (c : String) (v : Cell) : Row :=
  if r.any (fun p => p.1 == c) then
    r.map (fun p => if p.1 == c then (c, v) else p)
  else
    r ++ [(c, v)]

/-- pandas `df[c] = vals`: set column `c` of every row, appending `c` to
the schema when it is new. -/
def setColumn (df : DataFrame) (c : String) (vals : List Cell) : DataFrame :=
  ⟨if df.colNames.contains c then df.colNames else df.colNames ++ [c],
   List.zipWith (fun r v => setCell r c v) df.rows vals⟩

/-- The processed split list of one row's target cell:
`lstrip(row[col].split(sep), lower)`. -/
def procCell (col sep : String) (lower : Bool) (r : Row) : List String :=
  lstrip (pySplit (Row.getCell r col).asStr sep) lower

/-- Core of `split_column_with_multiple_entries` from `code/utils.py`,
after the identifier columns have been normalised to a list.

Steps, mirroring the source:
`df['temp'] = df[col].str.split(sep).apply(lstrip, lower=lower)` —
`KeyError` when `col` is not in the schema, `ValueError` when the
separator is empty (Python `str.split`), `TypeError` when a cell is not
a string; then iterate `df[[*ref_col, 'temp']].iterrows()` — `KeyError`
when an identifier column is missing — and emit one output row
`[i, *items[ref_col], m]` per processed value `m`.  The first component
of the result is the input frame after the call (it now carries the
`temp` column); the second is the returned frame with schema
`['paper nb', *ref_col, col]`. -/
def split_column_core (df : DataFrame) (col : String) (ref_col : List String)
    (sep : String) (lower : Bool) : Except String (DataFrame × DataFrame) :=
  if ¬ df.colNames.contains col then
    Except.error ("KeyError: " ++ col)
  else if sep.isEmpty && !df.rows.isEmpty then
    Except.error "ValueError: empty separator"
  else if ¬ df.rows.all (fun r => (Row.getCell r col).isStr) then
    Except.error "TypeError: expected string values in target column"
  else
    let df2 := setColumn df "temp"
      (df.rows.map (fun r => Cell.strList (procCell col sep lower r)))
    if ¬ (ref_col ++ ["temp"]).all (fun c => df2.colNames.contains c) then
      Except.error "KeyError: missing identifier column"
    else
      let value_per_row := df2.rows.enum.flatMap (fun p =>
        match Row.getCell p.2 "temp" with
        | Cell.strList l =>
            l.map (fun m =>
              ("paper nb", Cell.nat p.1) ::
                (ref_col.map (fun c => (c, Row.getCell p.2 c)) ++
                  [(col, Cell.str m)]))
        | _ => [])
      Except.ok (df2, ⟨"paper nb" :: (ref_col ++ [col]), value_per_row⟩)

/-- The `ref_col` argument of the source function: either a single column
name or a list of column names. -/
inductive RefColArg where
  | one (c : String)
  | many (cs : List String)

/-- `if not isinstance(ref_col, list): ref_col = [ref_col]`. -/
def RefColArg.toList : RefColArg → List String
  | RefColArg.one c => [c]
  | RefColArg.many cs => cs

/-- `split_column_with_multiple_entries` from `code/utils.py`. -/
def split_column_with_multiple_entries (df : DataFrame) (col : String)
    (ref_col : RefColArg) (sep : String) (lower : Bool) :
    Except String (DataFrame × DataFrame) :=
  split_column_core df col ref_col.toList sep lower

instance : DecidableEq (Except String (DataFrame × DataFrame)) := fun a b =>
  match a, b with
  | Except.ok x, Except.ok y =>
    if h : x = y then isTrue (by rw [h]) else isFalse (by intro hh; injection hh; exact h (by assumption))
  | Except.error x, Except.error y =>
    if h : x = y then isTrue (by rw [h]) else isFalse (by intro hh; injection hh; exact h (by assumption))
  | Except.ok _, Except.error _ => isFalse (fun hh => Except.noConfusion hh)
  | Except.error _, Except.ok _ => isFalse (fun hh => Except.noConfusion hh)

/-- The fixed list of seven main domains of `extract_main_domains`. -/
def main_domains : List String :=
  ["Epilepsy", "Sleep", "BCI", "Affective", "Cognitive",
   "Improvement of processing tools", "Generation of data"]

/-- The four domain columns scanned by `extract_main_domains`. -/
def domain_cols : List String :=
  ["Domain 1", "Domain 2", "Domain 3", "Domain 4"]

/-- pandas `isin`: a cell belongs to a list of strings exactly when it is
a string cell whose string is in the list. -/
def cellIsIn (l : List String) (c : Cell) : Bool :=
  match c with
  | Cell.str s => l.contains s
  | _ => false

/-- `extract_main_domains` from `code/utils.py`:
`df['Main domain'] = [row[row.isin(main_domains)].values[0]
if any(row.isin(main_domains)) else 'Others' for ind, row in
domains_df.iterrows()]` where `domains_df = df[domain_cols]`
(`KeyError` when a domain column is missing from the schema). -/
def extract_main_domains (df : DataFrame) : Except String DataFrame :=
  if ¬ domain_cols.all (fun c => df.colNames.contains c) then
    Except.error "KeyError: missing domain column"
  else
    let mains := df.rows.map (fun r =>
      let cands := domain_cols.map (fun c => Row.getCell r c)
      if cands.any (cellIsIn main_domains) then
        ((cands.filter (cellIsIn main_domains)).head?).getD (Cell.str "Others")
      else Cell.str "Others")
    Except.ok (setColumn df "Main domain" mains)

instance : DecidableEq (Except String DataFrame) := fun a b =>
  match a, b with
  | Except.ok x, Except.ok y =>
    if h : x = y then isTrue (by rw [h]) else isFalse (by intro hh; injection hh; exact h (by assumption))
  | Except.error x, Except.error y =>
    if h : x = y then isTrue (by rw [h]) else isFalse (by intro hh; injection hh; exact h (by assumption))
  | Except.ok _, Except.error _ => isFalse (fun hh => Except.noConfusion hh)
  | Except.error _, Except.ok _ => isFalse (fun hh => Except.noConfusion hh)

/-- The `paper nb` value of an output row, read as a natural number. -/
def paperNb (r : Row) : Nat :=
  match Row.getCell r "paper nb" with
  | Cell.nat i => i
  | _ => 0

/-- A concrete two-row literature table used as a test fixture. -/
def dfEx : DataFrame :=
  ⟨["Citation", "Subjects"],
   [[("Citation", Cell.str "A1"), ("Subjects", Cell.str "15, 203, 23")],
    [("Citation", Cell.str "B2"), ("Subjects", Cell.str "7")]]⟩

/-- `dfEx` as it stands after expanding `Subjects` on `", "`:
the `temp` column has been added to it. -/
def dfExMut : DataFrame :=
  ⟨["Citation", "Subjects", "temp"],
   [[("Citation", Cell.str "A1"), ("Subjects", Cell.str "15, 203, 23"),
     ("temp", Cell.strList ["15", "203", "23"])],
    [("Citation", Cell.str "B2"), ("Subjects", Cell.str "7"),
     ("temp", Cell.strList ["7"])]]⟩

/-- The expanded table returned for `dfEx` (target `Subjects`, separator
`", "`, identifier `Citation`, lowercasing on). -/
def dfExOut : DataFrame :=
  ⟨["paper nb", "Citation", "Subjects"],
   [[("paper nb", Cell.nat 0), ("Citation", Cell.str "A1"), ("Subjects", Cell.str "15")],
    [("paper nb", Cell.nat 0), ("Citation", Cell.str "A1"), ("Subjects", Cell.str "203")],
    [("paper nb", Cell.nat 0), ("Citation", Cell.str "A1"), ("Subjects", Cell.str "23")],
    [("paper nb", Cell.nat 1), ("Citation", Cell.str "B2"), ("Subjects", Cell.str "7")]]⟩

/-- A one-row table whose target cell has leading and trailing
separators, so that splitting yields empty substrings. -/
def dfEmp : DataFrame :=
  ⟨["Citation", "Vals"],
   [[("Citation", Cell.str "A1"), ("Vals", Cell.str ";\nx;\n")]]⟩

/-- A concrete two-row table with the four domain columns. -/
def dfDom : DataFrame :=
  ⟨["Domain 1", "Domain 2", "Domain 3", "Domain 4"],
   [[("Domain 1", Cell.str "Foo"), ("Domain 2", Cell.str "Sleep"),
     ("Domain 3", Cell.str "BCI"), ("Domain 4", Cell.str "Bar")],
    [("Domain 1", Cell.str "x"), ("Domain 2", Cell.str "y"),
     ("Domain 3", Cell.str "z"), ("Domain 4", Cell.str "w")]]⟩

/-- `dfDom` after `extract_main_domains`: the `Main domain` column holds
the first matching main domain (`Sleep`), or `Others`. -/
def dfDomOut : DataFrame :=
  ⟨["Domain 1", "Domain 2", "Domain 3", "Domain 4", "Main domain"],
   [[("Domain 1", Cell.str "Foo"), ("Domain 2", Cell.str "Sleep"),
     ("Domain 3", Cell.str "BCI"), ("Domain 4", Cell.str "Bar"),
     ("Main domain", Cell.str "Sleep")],
    [("Domain 1", Cell.str "x"), ("Domain 2", Cell.str "y"),
     ("Domain 3", Cell.str "z"), ("Domain 4", Cell.str "w"),
     ("Main domain", Cell.str "Others")]]⟩

/-- `dfEmp` as it stands after expanding `Vals` on `";\n"`. -/
def dfEmpMut : DataFrame :=
  ⟨["Citation", "Vals", "temp"],
   [[("Citation", Cell.str "A1"), ("Vals", Cell.str ";\nx;\n"),
     ("temp", Cell.strList ["", "x", ""])]]⟩

/-- The expanded table returned for `dfEmp`: the empty substrings are
emitted as empty-string rows. -/
def dfEmpOut : DataFrame :=
  ⟨["paper nb", "Citation", "Vals"],
   [[("paper nb", Cell.nat 0), ("Citation", Cell.str "A1"), ("Vals", Cell.str "")],
    [("paper nb", Cell.nat 0), ("Citation", Cell.str "A1"), ("Vals", Cell.str "x")],
    [("paper nb", Cell.nat 0), ("Citation", Cell.str "A1"), ("Vals", Cell.str "")]]⟩

example : pySplit "a;\nb;\nc" ";\n" = ["a", "b", "c"] := by decide
example : pySplit ";\na;\n" ";\n" = ["", "a", ""] := by decide
example : pySplit "" ";\n" = [""] := by decide
example : pySplit "15, 203, 23" ", " = ["15", "203", "23"] := by decide
example : lstrip ["  A b", "C"] true = ["a b", "c"] := by decide
example : lstrip ["  A b", "C"] false = ["A b", "C"] := by decide

theorem getCell_replace_of_any (c : String) (v : Cell) :
    ∀ r : Row, r.any (fun p => p.1 == c) = true →
      Row.getCell (r.map (fun p => if p.1 == c then (c, v) else p)) c = v := by
  intro r
  induction r with
  | nil => intro h; simp at h
  | cons p t ih =>
    intro h
    by_cases hp : p.1 = c
    · simp [Row.getCell, hp]
    · have hb : (p.1 == c) = false := by simp [hp]
      simp only [List.map_cons, hb, Bool.false_eq_true, if_false, Row.getCell]
      exact ih (by simpa [List.any_cons, hb] using h)

theorem getCell_append_of_not_any (c : String) (v : Cell) :
    ∀ r : Row, r.any (fun p => p.1 == c) = false →
      Row.getCell (r ++ [(c, v)]) c = v := by
  intro r
  induction r with
  | nil => intro _; simp [Row.getCell]
  | cons p t ih =>
    intro h
    simp only [List.any_cons, Bool.or_eq_false_iff] at h
    simp only [List.cons_append, Row.getCell, h.1, Bool.false_eq_true, if_false]
    exact ih h.2

/-- Reading back the column just set yields the new value. -/
theorem getCell_setCell_self (r : Row) (c : String) (v : Cell) :
    Row.getCell (setCell r c v) c = v := by
  unfold setCell
  by_cases h : r.any (fun p => p.1 == c) = true
  · rw [if_pos h]; exact getCell_replace_of_any c v r h
  · rw [if_neg h]
    exact getCell_append_of_not_any c v r (Bool.eq_false_iff.mpr h)

theorem getCell_replace_ne (c c' : String) (v : Cell) (h : c' ≠ c) :
    ∀ r : Row, Row.getCell (r.map (fun p => if p.1 == c then (c, v) else p)) c'
      = Row.getCell r c' := by
  intro r
  induction r with
  | nil => rfl
  | cons p t ih =>
    simp only [beq_iff_eq] at ih
    by_cases hp : p.1 = c
    · simp [Row.getCell, hp, Ne.symm h, ih]
    · simp only [List.map_cons, beq_iff_eq, if_neg hp]
      by_cases hp' : p.1 = c'
      · simp [Row.getCell, hp']
      · simp [Row.getCell, hp', ih]

theorem getCell_append_single_ne (c c' : String) (v : Cell) (h : c' ≠ c) :
    ∀ r : Row, Row.getCell (r ++ [(c, v)]) c' = Row.getCell r c' := by
  intro r
  induction r with
  | nil => simp [Row.getCell, Ne.symm h]
  | cons p t ih => by_cases hp : p.1 = c' <;> simp [Row.getCell, hp, ih]

/-- Setting one column leaves every other column of the row unchanged. -/
theorem getCell_setCell_ne (r : Row) (c c' : String) (v : Cell) (h : c' ≠ c) :
    Row.getCell (setCell r c v) c' = Row.getCell r c' := by
  unfold setCell
  split
  · exact getCell_replace_ne c c' v h r
  · exact getCell_append_single_ne c c' v h r

/-- On a successful run, `split_column_core` returns: the input frame
with the `temp` column set to the processed split lists, and an output
frame with schema `['paper nb', *ref_col, col]` whose rows are, for each
input row in order, one row per processed value in split order. -/
theorem split_column_core_ok {df : DataFrame} {col : String} {ref_col : List String}
    {sep : String} {lower : Bool} {df2 out : DataFrame}
    (h : split_column_core df col ref_col sep lower = Except.ok (df2, out)) :
    df2 = setColumn df "temp"
        (df.rows.map (fun r => Cell.strList (procCell col sep lower r))) ∧
    out.colNames = "paper nb" :: (ref_col ++ [col]) ∧
    out.rows = df.rows.enum.flatMap (fun p =>
      (procCell col sep lower p.2).map (fun m =>
        ("paper nb", Cell.nat p.1) ::
          (ref_col.map (fun c =>
            (c, Row.getCell
              (setCell p.2 "temp" (Cell.strList (procCell col sep lower p.2))) c)) ++
            [(col, Cell.str m)]))) := by
  unfold split_column_core at h
  split at h
  · exact absurd h (by simp)
  · split at h
    · exact absurd h (by simp)
    · split at h
      · exact absurd h (by simp)
      · simp only [] at h
        split at h
        · exact absurd h (by simp)
        · rw [Except.ok.injEq, Prod.mk.injEq] at h
          obtain ⟨h1, h2⟩ := h
          refine ⟨h1.symm, ?_, ?_⟩
          · rw [← h2]
          · rw [← h2]
            have hrows : (setColumn df "temp"
                (df.rows.map (fun r => Cell.strList (procCell col sep lower r)))).rows
                = df.rows.map (fun r =>
                    setCell r "temp" (Cell.strList (procCell col sep lower r))) := by
              simp [setColumn, List.zipWith_map_right, List.zipWith_same]
            show (setColumn df "temp"
                (df.rows.map (fun r =>
                  Cell.strList (procCell col sep lower r)))).rows.enum.flatMap _ = _
            rw [hrows, List.enum_map, List.flatMap_map]
            congr 1
            funext p
            simp only [Prod.map, id_eq]
            rw [getCell_setCell_self]

theorem enum_map_snd_fun {α β : Type _} (l : List α) (g : α → β) :
    l.enum.map (fun p => g p.2) = l.map g := by
  rw [show (fun p : Nat × α => g p.2) = g ∘ Prod.snd from rfl, ← List.map_map,
    List.enum_map_snd]

theorem enum_flatMap_snd_fun {α β : Type _} (l : List α) (F : α → List β) :
    l.enum.flatMap (fun p => F p.2) = l.flatMap F := by
  rw [List.flatMap_def, List.flatMap_def,
    show (fun p : Nat × α => F p.2) = F ∘ Prod.snd from rfl, ← List.map_map,
    List.enum_map_snd]

theorem pairwise_fst_lt_enumFrom {α : Type _} (l : List α) :
    ∀ n, List.Pairwise (fun p q : Nat × α => p.1 < q.1) (l.enumFrom n) := by
  induction l with
  | nil => intro n; simp
  | cons a t ih =>
    intro n
    rw [List.enumFrom_cons]
    refine List.Pairwise.cons ?_ (ih (n + 1))
    intro q hq
    rcases q with ⟨i, x⟩
    exact Nat.lt_of_succ_le (List.mem_enumFrom hq).1

theorem pairwise_fst_lt_enum {α : Type _} (l : List α) :
    List.Pairwise (fun p q : Nat × α => p.1 < q.1) l.enum :=
  pairwise_fst_lt_enumFrom l 0

theorem head?_filter_eq_find? {α : Type _} (p : α → Bool) :
    ∀ l : List α, (l.filter p).head? = l.find? p := by
  intro l
  induction l with
  | nil => rfl
  | cons a t ih =>
    rw [List.filter_cons, List.find?_cons]
    cases hp : p a
    · simp [ih]
    · simp

/-- C1: when the expand call succeeds (in particular the target column
exists in every row), the number of rows of the expanded table equals
the sum, over all input rows, of the number of substrings obtained by
splitting that row's target cell on the separator. -/
theorem expand_length_eq_sum_split_counts {df : DataFrame} {col : String}
    {ref_col : List String} {sep : String} {lower : Bool} {df2 out : DataFrame}
    (h : split_column_core df col ref_col sep lower = Except.ok (df2, out)) :
    out.rows.length =
      (df.rows.map (fun r => (pySplit (Row.getCell r col).asStr sep).length)).sum := by
  obtain ⟨-, -, hrows⟩ := split_column_core_ok h
  rw [hrows, List.length_flatMap]
  simp only [Function.comp_def, List.length_map]
  rw [enum_map_snd_fun df.rows (fun r => (procCell col sep lower r).length)]
  simp [procCell, lstrip]

/-- C3: the emitted row sequence is exactly, for each input row in
input-row order, one block of output rows whose values follow that row's
split list in split order — a full sequence identity, so no reordering,
sorting, or deduplication of rows can occur, neither across groups nor
within a group.  Consequently the `paper nb` sequence is the input
indices each repeated once per split value, and is non-decreasing. -/
theorem expand_preserves_row_order {df : DataFrame} {col : String}
    {ref_col : List String} {sep : String} {lower : Bool} {df2 out : DataFrame}
    (h : split_column_core df col ref_col sep lower = Except.ok (df2, out)) :
    out.rows = df.rows.enum.flatMap (fun p =>
      (procCell col sep lower p.2).map (fun m =>
        ("paper nb", Cell.nat p.1) ::
          (ref_col.map (fun c =>
            (c, Row.getCell
              (setCell p.2 "temp" (Cell.strList (procCell col sep lower p.2))) c)) ++
            [(col, Cell.str m)]))) ∧
    out.rows.map paperNb = df.rows.enum.flatMap (fun p =>
      List.replicate (procCell col sep lower p.2).length p.1) ∧
    List.Pairwise (· ≤ ·) (out.rows.map paperNb) := by
  obtain ⟨-, -, hrows⟩ := split_column_core_ok h
  refine ⟨hrows, ?_⟩
  have hmap : out.rows.map paperNb = df.rows.enum.flatMap (fun p =>
      List.replicate (procCell col sep lower p.2).length p.1) := by
    rw [hrows, List.map_flatMap]
    congr 1
    funext p
    rw [List.map_map]
    have hconst : (paperNb ∘ fun m =>
        ("paper nb", Cell.nat p.1) ::
          (ref_col.map (fun c =>
            (c, Row.getCell
              (setCell p.2 "temp" (Cell.strList (procCell col sep lower p.2))) c)) ++
            [(col, Cell.str m)])) = fun _ => p.1 := by
      funext m
      simp [Function.comp, paperNb, Row.getCell]
    rw [hconst, List.map_const']
  refine ⟨hmap, ?_⟩
  rw [hmap, List.flatMap_def, List.pairwise_flatten]
  constructor
  · intro l hl
    rw [List.mem_map] at hl
    obtain ⟨p, -, rfl⟩ := hl
    exact List.pairwise_replicate.mpr (Or.inr le_rfl)
  · rw [List.pairwise_map]
    refine (pairwise_fst_lt_enum df.rows).imp ?_
    intro p q hpq x hx y hy
    rw [List.mem_replicate] at hx hy
    rw [hx.2, hy.2]
    exact le_of_lt hpq

/-- C4: every output row starts with the `paper nb` of its source row,
and its identifier cells are verbatim copies of the source row's values
in those columns (provided no identifier column is named `temp`, the
scratch column the source writes into the frame before iterating). -/
theorem expand_identifier_fidelity {df : DataFrame} {col : String}
    {ref_col : List String} {sep : String} {lower : Bool} {df2 out : DataFrame}
    (h : split_column_core df col ref_col sep lower = Except.ok (df2, out))
    (htemp : "temp" ∉ ref_col) :
    ∀ r ∈ out.rows,
      r.head? = some ("paper nb", Cell.nat (paperNb r)) ∧
      (r.drop 1).take ref_col.length =
        ref_col.map (fun c =>
          (c, Row.getCell ((df.rows[paperNb r]?).getD []) c)) := by
  obtain ⟨-, -, hrows⟩ := split_column_core_ok h
  intro r hr
  rw [hrows, List.mem_flatMap] at hr
  obtain ⟨p, hp, hm⟩ := hr
  rw [List.mem_map] at hm
  obtain ⟨m, -, rfl⟩ := hm
  have hpn : paperNb (("paper nb", Cell.nat p.1) ::
      (ref_col.map (fun c =>
        (c, Row.getCell
          (setCell p.2 "temp" (Cell.strList (procCell col sep lower p.2))) c)) ++
        [(col, Cell.str m)])) = p.1 := by
    simp [paperNb, Row.getCell]
  rw [hpn]
  refine ⟨rfl, ?_⟩
  rw [List.mem_enum_iff_getElem?.mp hp]
  simp only [Option.getD_some]
  simp only [List.drop_succ_cons, List.drop_zero]
  rw [List.take_left' (List.length_map _ _)]
  refine List.map_congr_left ?_
  intro c hc
  exact congrArg _ (getCell_setCell_ne _ _ _ _ (fun e => htemp (e ▸ hc)))

/-- C5: the target-column value of each output row (its last cell) is
the corresponding raw substring with leading whitespace stripped
unconditionally, lowercased exactly when the `lower` flag is true. -/
theorem expand_value_processing {df : DataFrame} {col : String}
    {ref_col : List String} {sep : String} {lower : Bool} {df2 out : DataFrame}
    (h : split_column_core df col ref_col sep lower = Except.ok (df2, out)) :
    out.rows.map (fun r => r.getLast?) =
      (df.rows.flatMap (fun r =>
        (pySplit (Row.getCell r col).asStr sep).map (fun a =>
          if lower then pyLower (pyLstrip a) else pyLstrip a))).map
        (fun m => some (col, Cell.str m)) := by
  obtain ⟨-, -, hrows⟩ := split_column_core_ok h
  rw [hrows, List.map_flatMap, List.map_flatMap]
  rw [← enum_flatMap_snd_fun df.rows (fun r =>
    ((pySplit (Row.getCell r col).asStr sep).map (fun a =>
      if lower then pyLower (pyLstrip a) else pyLstrip a)).map
      (fun m => some (col, Cell.str m)))]
  congr 1
  funext p
  rw [List.map_map, List.map_map]
  simp only [procCell, lstrip, List.map_map]
  congr 1
  funext a
  simp only [Function.comp]
  rw [← List.cons_append, List.getLast?_concat]

/-- C2 counterexample: the call is not side-effect free — on a concrete
table the input frame after the call differs from the input frame before
it (a `temp` column has been added by `df['temp'] = ...`). -/
theorem expand_mutates_input_counterexample :
    (split_column_core dfEx "Subjects" ["Citation"] ", " true).toOption.map Prod.fst
      ≠ some dfEx := by decide

/-- C2 (amended): the only change the call makes to the input table is
adding (or overwriting) the `temp` scratch column: the row count is
unchanged, every column other than `temp` is unchanged in every row, and
the schema at most gains `temp` at its end. -/
theorem expand_mutates_only_temp {df : DataFrame} {col : String}
    {ref_col : List String} {sep : String} {lower : Bool} {df2 out : DataFrame}
    (h : split_column_core df col ref_col sep lower = Except.ok (df2, out)) :
    df2.rows.length = df.rows.length ∧
    (∀ c, c ≠ "temp" → ∀ i : Nat, df2.rows[i]?.map (fun r => Row.getCell r c)
        = df.rows[i]?.map (fun r => Row.getCell r c)) ∧
    (df2.colNames = df.colNames ∨ df2.colNames = df.colNames ++ ["temp"]) := by
  obtain ⟨h1, -, -⟩ := split_column_core_ok h
  subst h1
  have hrows : (setColumn df "temp"
      (df.rows.map (fun r => Cell.strList (procCell col sep lower r)))).rows
      = df.rows.map (fun r =>
          setCell r "temp" (Cell.strList (procCell col sep lower r))) := by
    simp [setColumn, List.zipWith_map_right, List.zipWith_same]
  refine ⟨?_, ?_, ?_⟩
  · rw [hrows, List.length_map]
  · intro c hc i
    rw [hrows, List.getElem?_map]
    cases hi : df.rows[i]? with
    | none => rfl
    | some r0 =>
      simp only [Option.map_some']
      rw [getCell_setCell_ne _ _ _ _ hc]
  · simp only [setColumn]
    split
    · exact Or.inl rfl
    · exact Or.inr rfl

/-- C7: an empty substring in the split of row `i`'s target cell (as
produced by a leading or trailing separator, or adjacent separators) is
still emitted: the output contains a row for input row `i` whose
target-column value is the empty string. -/
theorem expand_keeps_empty_values {df : DataFrame} {col : String}
    {ref_col : List String} {sep : String} {lower : Bool} {df2 out : DataFrame}
    (h : split_column_core df col ref_col sep lower = Except.ok (df2, out))
    (i j : Nat) (r0 : Row)
    (hrow : df.rows[i]? = some r0)
    (hemp : (pySplit (Row.getCell r0 col).asStr sep)[j]? = some "") :
    out.rows.any (fun r =>
      decide (r.head? = some ("paper nb", Cell.nat i)) &&
      decide (r.getLast? = some (col, Cell.str ""))) = true := by
  obtain ⟨-, -, hrows⟩ := split_column_core_ok h
  have hproc : (procCell col sep lower r0)[j]? = some "" := by
    simp only [procCell, lstrip, List.getElem?_map, hemp, Option.map_some']
    cases lower <;> rfl
  have hmem : ("" : String) ∈ procCell col sep lower r0 := by
    obtain ⟨hlt, heq⟩ := List.getElem?_eq_some_iff.mp hproc
    exact heq ▸ List.getElem_mem hlt
  rw [List.any_eq_true]
  refine ⟨("paper nb", Cell.nat i) ::
      (ref_col.map (fun c =>
        (c, Row.getCell
          (setCell r0 "temp" (Cell.strList (procCell col sep lower r0))) c)) ++
        [(col, Cell.str "")]), ?_, ?_⟩
  · rw [hrows, List.mem_flatMap]
    refine ⟨(i, r0), List.mem_enum_iff_getElem?.mpr hrow, ?_⟩
    rw [List.mem_map]
    exact ⟨"", hmem, rfl⟩
  · rw [Bool.and_eq_true]
    exact ⟨decide_eq_true rfl,
      decide_eq_true (by rw [← List.cons_append, List.getLast?_concat])⟩

/-- C8: expand is deterministic — two calls on equal inputs return equal
results (the embedding is a pure function of its arguments; there is no
hidden state). -/
theorem expand_deterministic (dfA dfB : DataFrame) (colA colB : String)
    (rcA rcB : RefColArg) (sepA sepB : String) (lowA lowB : Bool)
    (hdf : dfA = dfB) (hcol : colA = colB) (hrc : rcA = rcB)
    (hsep : sepA = sepB) (hlow : lowA = lowB) :
    split_column_with_multiple_entries dfA colA rcA sepA lowA =
    split_column_with_multiple_entries dfB colB rcB sepB lowB := by
  subst hdf; subst hcol; subst hrc; subst hsep; subst hlow; rfl

/-- C9: passing a single identifier column name yields exactly the same
result as passing the one-element list containing that name. -/
theorem expand_refcol_single_eq_singleton (df : DataFrame) (col c sep : String)
    (lower : Bool) :
    split_column_with_multiple_entries df col (RefColArg.one c) sep lower =
    split_column_with_multiple_entries df col (RefColArg.many [c]) sep lower := rfl

/-- C10: each row's `Main domain` is the first value among
`Domain 1..Domain 4`, scanned in that order, that belongs to the fixed
seven main domains, and `Others` when none of the four belongs to it. -/
theorem extract_main_domains_first_match {df out : DataFrame}
    (h : extract_main_domains df = Except.ok out) :
    ∀ (i : Nat) (r0 : Row), df.rows[i]? = some r0 →
      out.rows[i]?.map (fun r1 => Row.getCell r1 "Main domain") =
        some (((domain_cols.map (fun c => Row.getCell r0 c)).find?
          (cellIsIn main_domains)).getD (Cell.str "Others")) := by
  unfold extract_main_domains at h
  split at h
  · exact absurd h (by simp)
  · rw [Except.ok.injEq] at h
    subst h
    intro i r0 hrow
    have hrows : ∀ vals : Row → Cell,
        (setColumn df "Main domain" (df.rows.map vals)).rows
        = df.rows.map (fun r => setCell r "Main domain" (vals r)) := by
      intro vals
      simp [setColumn, List.zipWith_map_right, List.zipWith_same]
    rw [hrows, List.getElem?_map, hrow, Option.map_some', Option.map_some']
    rw [getCell_setCell_self]
    by_cases hany :
        (domain_cols.map (fun c => Row.getCell r0 c)).any (cellIsIn main_domains)
    · simp only [hany, if_true]
      rw [head?_filter_eq_find?]
    · simp only [hany, Bool.false_eq_true, if_false]
      have hnone : (domain_cols.map (fun c => Row.getCell r0 c)).find?
          (cellIsIn main_domains) = none := by
        rw [List.find?_eq_none]
        intro x hx hpx
        exact (Bool.eq_false_iff.mp (Bool.eq_false_iff.mpr hany)) (by
          rw [List.any_eq_true]
          exact ⟨x, hx, hpx⟩)
      rw [hnone]
      rfl

theorem expand_length_eq_sum_split_counts_witness :
    split_column_core dfEx "Subjects" ["Citation"] ", " true
        = Except.ok (dfExMut, dfExOut) ∧
    dfExOut.rows.length =
      (dfEx.rows.map (fun r =>
        (pySplit (Row.getCell r "Subjects").asStr ", ").length)).sum := by
  have h : split_column_core dfEx "Subjects" ["Citation"] ", " true
      = Except.ok (dfExMut, dfExOut) := by decide
  exact ⟨h, expand_length_eq_sum_split_counts h⟩

theorem expand_mutates_only_temp_witness :
    split_column_core dfEx "Subjects" ["Citation"] ", " true
        = Except.ok (dfExMut, dfExOut) ∧
    (dfExMut.colNames = dfEx.colNames ∨
      dfExMut.colNames = dfEx.colNames ++ ["temp"]) := by
  have h : split_column_core dfEx "Subjects" ["Citation"] ", " true
      = Except.ok (dfExMut, dfExOut) := by decide
  exact ⟨h, (expand_mutates_only_temp h).2.2⟩

theorem expand_preserves_row_order_witness :
    split_column_core dfEx "Subjects" ["Citation"] ", " true
        = Except.ok (dfExMut, dfExOut) ∧
    (dfExOut.rows = dfEx.rows.enum.flatMap (fun p =>
      (procCell "Subjects" ", " true p.2).map (fun m =>
        ("paper nb", Cell.nat p.1) ::
          ((["Citation"] : List String).map (fun c =>
            (c, Row.getCell
              (setCell p.2 "temp"
                (Cell.strList (procCell "Subjects" ", " true p.2))) c)) ++
            [("Subjects", Cell.str m)]))) ∧
    dfExOut.rows.map paperNb = dfEx.rows.enum.flatMap (fun p =>
      List.replicate (procCell "Subjects" ", " true p.2).length p.1) ∧
    List.Pairwise (· ≤ ·) (dfExOut.rows.map paperNb)) := by
  have h : split_column_core dfEx "Subjects" ["Citation"] ", " true
      = Except.ok (dfExMut, dfExOut) := by decide
  exact ⟨h, expand_preserves_row_order h⟩

theorem expand_identifier_fidelity_witness :
    split_column_core dfEx "Subjects" ["Citation"] ", " true
        = Except.ok (dfExMut, dfExOut) ∧
    "temp" ∉ (["Citation"] : List String) ∧
    (([("paper nb", Cell.nat 0), ("Citation", Cell.str "A1"),
        ("Subjects", Cell.str "15")] : Row).head?
        = some ("paper nb", Cell.nat (paperNb
            [("paper nb", Cell.nat 0), ("Citation", Cell.str "A1"),
              ("Subjects", Cell.str "15")])) ∧
    (([("paper nb", Cell.nat 0), ("Citation", Cell.str "A1"),
        ("Subjects", Cell.str "15")] : Row).drop 1).take
          (["Citation"] : List String).length
        = (["Citation"] : List String).map (fun c =>
            (c, Row.getCell ((dfEx.rows[paperNb
              [("paper nb", Cell.nat 0), ("Citation", Cell.str "A1"),
                ("Subjects", Cell.str "15")]]?).getD []) c))) := by
  have h : split_column_core dfEx "Subjects" ["Citation"] ", " true
      = Except.ok (dfExMut, dfExOut) := by decide
  have htemp : "temp" ∉ (["Citation"] : List String) := by decide
  have hmem : ([("paper nb", Cell.nat 0), ("Citation", Cell.str "A1"),
      ("Subjects", Cell.str "15")] : Row) ∈ dfExOut.rows := by decide
  exact ⟨h, htemp, expand_identifier_fidelity h htemp _ hmem⟩

theorem expand_value_processing_witness :
    split_column_core dfEx "Subjects" ["Citation"] ", " true
        = Except.ok (dfExMut, dfExOut) ∧
    dfExOut.rows.map (fun r => r.getLast?) =
      (dfEx.rows.flatMap (fun r =>
        (pySplit (Row.getCell r "Subjects").asStr ", ").map (fun a =>
          if true then pyLower (pyLstrip a) else pyLstrip a))).map
        (fun m => some ("Subjects", Cell.str m)) := by
  have h : split_column_core dfEx "Subjects" ["Citation"] ", " true
      = Except.ok (dfExMut, dfExOut) := by decide
  exact ⟨h, expand_value_processing h⟩

theorem expand_keeps_empty_values_witness :
    split_column_core dfEmp "Vals" ["Citation"] ";\n" true
        = Except.ok (dfEmpMut, dfEmpOut) ∧
    dfEmp.rows[0]? = some [("Citation", Cell.str "A1"),
      ("Vals", Cell.str ";\nx;\n")] ∧
    (pySplit (Row.getCell [("Citation", Cell.str "A1"),
      ("Vals", Cell.str ";\nx;\n")] "Vals").asStr ";\n")[0]? = some "" ∧
    dfEmpOut.rows.any (fun r =>
      decide (r.head? = some ("paper nb", Cell.nat 0)) &&
      decide (r.getLast? = some ("Vals", Cell.str ""))) = true := by
  have h : split_column_core dfEmp "Vals" ["Citation"] ";\n" true
      = Except.ok (dfEmpMut, dfEmpOut) := by decide
  have hrow : dfEmp.rows[0]? = some [("Citation", Cell.str "A1"),
      ("Vals", Cell.str ";\nx;\n")] := by decide
  have hemp : (pySplit (Row.getCell [("Citation", Cell.str "A1"),
      ("Vals", Cell.str ";\nx;\n")] "Vals").asStr ";\n")[0]? = some "" := by decide
  exact ⟨h, hrow, hemp, expand_keeps_empty_values h 0 0 _ hrow hemp⟩

theorem expand_deterministic_witness :
    split_column_with_multiple_entries dfEx "Subjects"
        (RefColArg.one "Citation") ", " true =
    split_column_with_multiple_entries dfEx "Subjects"
        (RefColArg.one "Citation") ", " true :=
  expand_deterministic dfEx dfEx "Subjects" "Subjects"
    (RefColArg.one "Citation") (RefColArg.one "Citation") ", " ", " true true
    rfl rfl rfl rfl rfl

theorem extract_main_domains_first_match_witness :
    extract_main_domains dfDom = Except.ok dfDomOut ∧
    dfDom.rows[0]? = some [("Domain 1", Cell.str "Foo"),
      ("Domain 2", Cell.str "Sleep"), ("Domain 3", Cell.str "BCI"),
      ("Domain 4", Cell.str "Bar")] ∧
    dfDomOut.rows[0]?.map (fun r1 => Row.getCell r1 "Main domain") =
      some (((domain_cols.map (fun c => Row.getCell
          [("Domain 1", Cell.str "Foo"), ("Domain 2", Cell.str "Sleep"),
            ("Domain 3", Cell.str "BCI"), ("Domain 4", Cell.str "Bar")] c)).find?
        (cellIsIn main_domains)).getD (Cell.str "Others")) := by
  have h : extract_main_domains dfDom = Except.ok dfDomOut := by decide
  have hrow : dfDom.rows[0]? = some [("Domain 1", Cell.str "Foo"),
      ("Domain 2", Cell.str "Sleep"), ("Domain 3", Cell.str "BCI"),
      ("Domain 4", Cell.str "Bar")] := by decide
  exact ⟨h, hrow, extract_main_domains_first_match h 0 _ hrow⟩
